import Mathlib

/-!
Verification of the PollPlay backend (`src/app.py`) coin-ledger and
redemption-workflow endpoints.

The SQLite tables are modelled as lists of rows inside a single `St` record;
SQLAlchemy's `query(...).filter(cond).first()` becomes `List.find?`, and a
mutation of the object returned by `.first()` becomes `updateFirst`, which
rewrites exactly the first matching row.  `db.add` appends a row.  An
`HTTPException` raised by a handler aborts the request before `db.commit()`,
so the session is rolled back and the store is unchanged; accordingly every
handler is a pure function `St → Except ApiError St` (possibly with a response
component) and an `Except.error` result leaves no new state.

Abstractions kept throughout (none affects a claim):
* Python `datetime` values only flow through the endpoints (they are parsed,
  stored and re-serialised, never compared by the modelled handlers), so they
  are represented by their string form; `datetime.now(IST)` becomes an
  explicit `now` parameter, and the IST day string `today_ist_date_str()` an
  explicit `today` parameter.  In `add_redemption_request`, where a claim
  depends on the failure modes of create, `dateutil.parser.parse` is
  modelled as the partial identity `date_parse?` whose failure aborts the
  handler with a 500 before commit; the other handlers' parses are kept as
  the identity since no claim touches their failure path.
* JSON-encoded string lists (`votedBy`, `specializations`) are modelled as the
  decoded lists; `json.dumps`/`json.loads` round-trip them unchanged.
* Python `int(...)` on a stored settings string is modelled by
  `String.toInt?` with the documented default on failure (`ValueError`).
* The SQLite UNIQUE/PRIMARY KEY constraints (user id, user email, user
  referralCode, redemption id, game-result id) make an unhandled
  `IntegrityError` escape as an HTTP 500 with no commit; this is modelled by
  explicit guards returning `ApiError.http 500 "IntegrityError"`.
-/

namespace PollPlay

/-- An `HTTPException(status_code, detail)` (or, for 422, a FastAPI query
validation rejection; for 500, an escaped `IntegrityError`). -/
inductive ApiError where
  | http (status : Nat) (detail : String)
deriving Repr, DecidableEq

/-- Row of the `users` table (`UserDB` in `src/app.py`).  `coins` is the coin
balance; the column is an SQLite `Integer` written only with Python ints, so it
is modelled as `Int`. -/
structure UserDB where
  id : String
  name : String
  email : String
  password : String
  avatar : String
  isAdmin : Bool
  coins : Int
  dailyAttempts : Int
  lastAttemptDate : String
  isBanned : Bool
  mobile : Option String
  gender : Option String
  bio : Option String
  specializations : Option (List String)
  referralCode : Option String
  referredBy : Option String
deriving Repr, DecidableEq

/-- Row of the `polls` table (`PollDB`); options live in `poll_options`. -/
structure PollDB where
  id : String
  title : String
  description : String
  category : String
  thumbnail : String
  createdAt : String
  disableVoiceComments : Bool
deriving Repr, DecidableEq

/-- Row of the `poll_options` table (`PollOptionDB`); `votedBy` is stored as a
JSON array of user ids and modelled as the decoded list. -/
structure PollOptionDB where
  id : String
  poll_id : String
  text : String
  imageUrl : String
  votes : Int
  votedBy : List String
deriving Repr, DecidableEq

/-- Row of the `redemption_requests` table (`RedemptionRequestDB`). -/
structure RedemptionRequestDB where
  id : String
  user_id : String
  amount : Int
  paymentDetails : String
  status : String
  requestedAt : String
  updatedAt : Option String
  adminNotes : Option String
deriving Repr, DecidableEq

/-- Row of the `ads_stats` table (`AdsStatsDB`); the autoincrement surrogate
`id` is never read by any handler and is omitted. -/
structure AdsStatsDB where
  user_id : String
  date : String
  watched : Int
  coins : Int
deriving Repr, DecidableEq

/-- Row of the `settings` table (`SettingsDB`). -/
structure SettingsDB where
  key : String
  value : String
deriving Repr, DecidableEq

/-- Row of the `game_results` table (`GameResultDB`). -/
structure GameResultDB where
  id : String
  user_id : String
  targetTime : Float
  actualTime : Float
  accuracy : Float
  coinsWon : Int
  playedAt : String
deriving Repr

/-- The persistent store: one list of rows per table touched by the claims. -/
structure St where
  users : List UserDB
  polls : List PollDB
  poll_options : List PollOptionDB
  redemption_requests : List RedemptionRequestDB
  ads_stats : List AdsStatsDB
  settings : List SettingsDB
  game_results : List GameResultDB
deriving Repr

/-- The pydantic `User` payload (used by `/signup` and `PUT /users/...`). -/
structure User where
  id : String
  name : String
  email : String
  password : String
  avatar : String
  isAdmin : Bool
  coins : Int
  dailyAttempts : Int
  lastAttemptDate : String
  isBanned : Bool
  mobile : Option String
  gender : Option String
  bio : Option String
  specializations : Option (List String)
  referralCode : Option String
  referredBy : Option String
deriving Repr, DecidableEq

/-- The pydantic `RedemptionRequest` payload of `POST /redemption-requests`;
only `request.user.id` of the nested `CommentUser` is read, kept as
`user_id`. -/
structure RedemptionRequest where
  id : String
  user_id : String
  amount : Int
  paymentDetails : String
  status : String
  requestedAt : String
  updatedAt : Option String
  adminNotes : Option String
deriving Repr, DecidableEq

/-- The pydantic `GameResult` payload of `POST /game-results`; only
`game_result.user.id` of the nested `CommentUser` is read, kept as
`user_id`. -/
structure GameResult where
  id : String
  user_id : String
  targetTime : Float
  actualTime : Float
  accuracy : Float
  coinsWon : Int
  playedAt : String
deriving Repr

/-- Apply `f` to the first element satisfying `p`, keeping the rest: the
effect of mutating the SQLAlchemy object returned by `.filter(p).first()`. -/
def updateFirst (p : α → Bool) (f : α → α) : List α → List α
  | [] => []
  | x :: xs => if p x then f x :: xs else x :: updateFirst p f xs

/-- Python truthiness of an `Optional[str]`: `None` and `""` are falsy. -/
def strTruthy : Option String → Bool
  | none => false
  | some s => s ≠ ""

/-- `dateutil.parser.parse` on a timestamp kept in string form: a partial
identity, with `none` standing for the `ParserError` a malformed string
raises.  The parse boundary is abstracted to "non-empty" (dateutil rejects
`""` and more); no claim depends on where the boundary lies, only on the
fact that a parse failure raises inside the handler before any commit. -/
def date_parse? (s : String) : Option String :=
  if s = "" then none else some s

/-- `date_parser.parse(request.updatedAt) if request.updatedAt else None`:
a falsy (missing or empty) `updatedAt` is stored as NULL without parsing;
a truthy one is parsed and may fail (outer `none`). -/
def parsedUpdatedAt? : Option String → Option (Option String)
  | none => some none
  | some s => if s = "" then some none else (date_parse? s).map some

/-- `json.dumps(user.specializations) if user.specializations else None`:
a missing or empty list is stored as NULL. -/
def storedSpecs : Option (List String) → Option (List String)
  | none => none
  | some l => if l.isEmpty then none else some l

/-- Decimal-digit run parser used to model Python `int(...)`: `none` unless
the character list is a non-empty string of digits. -/
def parseDigits (cs : List Char) : Option Nat :=
  if cs.isEmpty then none
  else cs.foldl (fun acc? c =>
    match acc? with
    | none => none
    | some n => if c.isDigit then some (n * 10 + (c.toNat - '0'.toNat)) else none)
    (some 0)

/-- Python `int(s)` on an optionally signed decimal string — the only shape
the settings endpoints ever store, via `str(int)` — with `none` standing for
`ValueError`. -/
def pyInt? (s : String) : Option Int :=
  match s.data with
  | [] => none
  | '-' :: cs => (parseDigits cs).map (fun n => -(n : Int))
  | '+' :: cs => (parseDigits cs).map (fun n => (n : Int))
  | cs => (parseDigits cs).map (fun n => (n : Int))

/-- `int(s)` with a fallback default on `ValueError`. -/
def pyIntD (s : String) (d : Int) : Int :=
  match pyInt? s with
  | some i => i
  | none => d

/-! ## `updateFirst` lemmas -/

theorem updateFirst_of_find?_none (p : α → Bool) (f : α → α) :
    ∀ l : List α, l.find? p = none → updateFirst p f l = l := by
  intro l h
  induction l with
  | nil => rfl
  | cons x xs ih =>
    rw [List.find?_cons] at h
    cases hp : p x with
    | true => rw [hp] at h; exact absurd h (by simp)
    | false =>
      rw [hp] at h
      simp [updateFirst, hp, ih h]

theorem find?_updateFirst (p : α → Bool) (f : α → α)
    (hp : ∀ a, p (f a) = p a) :
    ∀ l : List α, (updateFirst p f l).find? p = (l.find? p).map f := by
  intro l
  induction l with
  | nil => rfl
  | cons x xs ih =>
    cases hx : p x with
    | true => simp [updateFirst, hx, List.find?_cons, hp x]
    | false => simp [updateFirst, hx, List.find?_cons, ih]

theorem find?_updateFirst_comm (p q : α → Bool) (f : α → α) (g : α → β)
    (hq : ∀ a, q (f a) = q a) (hg : ∀ a, g (f a) = g a) :
    ∀ l : List α, ((updateFirst p f l).find? q).map g = (l.find? q).map g := by
  intro l
  induction l with
  | nil => rfl
  | cons x xs ih =>
    cases hx : p x with
    | true =>
      cases hqx : q x with
      | true => simp [updateFirst, hx, List.find?_cons, hq x, hqx, hg x]
      | false => simp [updateFirst, hx, List.find?_cons, hq x, hqx]
    | false =>
      cases hqx : q x with
      | true => simp [updateFirst, hx, List.find?_cons, hqx]
      | false => simp [updateFirst, hx, List.find?_cons, hqx, ih]

theorem forall_mem_updateFirst {Q : α → Prop} (p : α → Bool) (f : α → α)
    {l : List α} {a : α} (hfind : l.find? p = some a)
    (hall : ∀ b ∈ l, Q b) (hfa : Q (f a)) :
    ∀ b ∈ updateFirst p f l, Q b := by
  induction l with
  | nil => simp at hfind
  | cons x xs ih =>
    cases hx : p x with
    | true =>
      rw [List.find?_cons_of_pos _ hx, Option.some.injEq] at hfind
      intro b hb
      simp only [updateFirst, hx, if_true, List.mem_cons] at hb
      rcases hb with rfl | hb
      · rw [hfind]; exact hfa
      · exact hall b (List.mem_cons_of_mem x hb)
    | false =>
      rw [List.find?_cons_of_neg _ (by simp [hx])] at hfind
      intro b hb
      simp only [updateFirst, hx, Bool.false_eq_true, if_false, List.mem_cons] at hb
      rcases hb with rfl | hb
      · exact hall b (by simp)
      · exact ih hfind (fun c hc => hall c (List.mem_cons_of_mem x hc)) b hb

theorem forall_mem_updateFirst_of_inv {Q : α → Prop} (p : α → Bool) (f : α → α)
    {l : List α} (hall : ∀ b ∈ l, Q b) (hf : ∀ a, Q a → Q (f a)) :
    ∀ b ∈ updateFirst p f l, Q b := by
  induction l with
  | nil => intro b hb; simp [updateFirst] at hb
  | cons x xs ih =>
    intro b hb
    cases hx : p x with
    | true =>
      simp only [updateFirst, hx, if_true, List.mem_cons] at hb
      rcases hb with rfl | hb
      · exact hf x (hall x (List.mem_cons_self x xs))
      · exact hall b (List.mem_cons_of_mem x hb)
    | false =>
      simp only [updateFirst, hx, Bool.false_eq_true, if_false, List.mem_cons] at hb
      rcases hb with rfl | hb
      · exact hall b (by simp)
      · exact ih (fun c hc => hall c (List.mem_cons_of_mem x hc)) b hb

theorem find?_append_of_none (p : α → Bool) {l₁ : List α} (l₂ : List α)
    (h : l₁.find? p = none) : (l₁ ++ l₂).find? p = l₂.find? p := by
  induction l₁ with
  | nil => rfl
  | cons x xs ih =>
    rw [List.find?_cons] at h
    cases hx : p x with
    | true => rw [hx] at h; exact absurd h (by simp)
    | false =>
      rw [hx] at h
      simp only [List.cons_append, List.find?_cons, hx, ih h]

/-! ## Settings store (`get_setting`, `set_setting`,
`GET/PUT /settings/referral-rewards`, `PUT /settings/coin-value`) -/

/-- `get_setting(db, key, default)`. -/
def get_setting (st : St) (key : String) (default : Option String) : Option String :=
  match st.settings.find? (fun s => s.key == key) with
  | some s => some s.value
  | none => default

/-- `set_setting(db, key, value)`: update the row if present, else insert. -/
def set_setting (st : St) (key value : String) : St :=
  match st.settings.find? (fun s => s.key == key) with
  | some _ =>
    { st with settings := (updateFirst (fun s => s.key == key)
        (fun s => { s with value := value }) st.settings) }
  | none => { st with settings := st.settings ++ [⟨key, value⟩] }

/-- `get_referral_rewards`: `(referrerCoins, refereeCoins)`, defaults 15 and 5,
`int(...)` parse failures falling back to the defaults. -/
def get_referral_rewards (st : St) : Int × Int :=
  let referrer := (get_setting st "referralReferrerCoins" (some "15")).getD "15"
  let referee := (get_setting st "referralRefereeCoins" (some "5")).getD "5"
  (pyIntD referrer 15, pyIntD referee 5)

/-- `PUT /settings/referral-rewards` (`put_referral_rewards`); `str(i)` is
`toString i`. -/
def put_referral_rewards (st : St) (referrerCoins refereeCoins : Int) : St :=
  set_setting (set_setting st "referralReferrerCoins" (toString referrerCoins))
    "referralRefereeCoins" (toString refereeCoins)

/-- `PUT /settings/coin-value` (`put_coin_value`); the float is stored as its
`str(...)` form, taken here as an opaque string. -/
def put_coin_value (st : St) (value : String) : St :=
  set_setting st "coinValueINR" value

/-! ## Endpoints -/

/-- `POST /polls/\x7bpoll_id\x7d/vote` (`add_vote`).  A duplicate voter returns the
poll unchanged (no exception); otherwise the option gains one vote and the
voter id, and the voter — if they exist — gains one coin (a missing user is
simply skipped, not an error). -/
def add_vote (st : St) (poll_id option_id user_id : String) : Except ApiError St :=
  match st.polls.find? (fun p => p.id == poll_id) with
  | none => .error (.http 404 "Poll not found")
  | some _ =>
    match st.poll_options.find? (fun o => o.id == option_id && o.poll_id == poll_id) with
    | none => .error (.http 404 "Option not found")
    | some opt =>
      if user_id ∈ opt.votedBy then
        .ok st
      else
        .ok { st with
          poll_options := (updateFirst (fun o => o.id == option_id && o.poll_id == poll_id)
            (fun o => { o with votes := o.votes + 1, votedBy := o.votedBy ++ [user_id] })
            st.poll_options),
          users := (updateFirst (fun u => u.id == user_id)
            (fun u => { u with coins := u.coins + 1 }) st.users) }

/-- `POST /ads/reward` (`post_ads_reward`): clamp the grant to `max 0 amount`,
credit it, upsert today's `ads_stats` row, and return the new balance together
with the row re-queried after the commit. -/
def post_ads_reward (st : St) (today userId : String) (amount : Int) :
    Except ApiError (St × Int × AdsStatsDB) :=
  match st.users.find? (fun u => u.id == userId) with
  | none => .error (.http 404 "User not found")
  | some u =>
    let grant : Int := max 0 amount
    let st1 : St := { st with users := (updateFirst (fun x => x.id == userId)
        (fun x => { x with coins := x.coins + grant }) st.users) }
    let st2 : St :=
      match st1.ads_stats.find? (fun r => r.user_id == userId && r.date == today) with
      | none =>
        { st1 with ads_stats := (st1.ads_stats ++
            [⟨userId, today, if grant > 0 then 1 else 0, grant⟩]) }
      | some _ =>
        { st1 with ads_stats := (updateFirst (fun r => r.user_id == userId && r.date == today)
            (fun r => { r with watched := r.watched + (if grant > 0 then 1 else 0),
                               coins := r.coins + grant }) st1.ads_stats) }
    match st2.ads_stats.find? (fun r => r.user_id == userId && r.date == today) with
    | none => .error (.http 500 "stats row missing")
    | some row => .ok (st2, u.coins + grant, row)

/-- `POST /referral/apply` (`apply_referral`).  Python truthiness guards the
one-shot flag (`if joiner.referredBy:`), then rewards are read from settings
and both balances plus the `referredBy` back-reference are written together. -/
def apply_referral (st : St) (referralCode joinerUserId : String) : Except ApiError St :=
  match st.users.find? (fun u => u.id == joinerUserId) with
  | none => .error (.http 404 "Joiner user not found")
  | some joiner =>
    if strTruthy joiner.referredBy then
      .error (.http 400 "Referral already applied for this user")
    else
      match st.users.find? (fun u => u.referralCode == some referralCode) with
      | none => .error (.http 404 "Invalid referral code")
      | some referrer =>
        if referrer.id = joiner.id then
          .error (.http 400 "Cannot refer yourself")
        else
          let rewards := get_referral_rewards st
          let users1 := updateFirst (fun u => u.id == joinerUserId)
            (fun u => { u with coins := u.coins + rewards.2, referredBy := some referrer.id })
            st.users
          let users2 := updateFirst (fun u => u.referralCode == some referralCode)
            (fun u => { u with coins := u.coins + rewards.1 }) users1
          .ok { st with users := users2 }

/-- `POST /signup` (`signup`).  The handler checks the email itself; the UNIQUE
id and referralCode columns are modelled as `IntegrityError` guards.
`coins` is taken verbatim from the client payload. -/
def signup (st : St) (user : User) : Except ApiError St :=
  match st.users.find? (fun u => u.email == user.email) with
  | some _ => .error (.http 400 "Email already exists")
  | none =>
    if st.users.any (fun u => u.id == user.id) then
      .error (.http 500 "IntegrityError")
    else if (match user.referralCode with
             | some c => st.users.any (fun u => u.referralCode == some c)
             | none => false) then
      .error (.http 500 "IntegrityError")
    else
      .ok { st with users := (st.users ++ [{
        id := user.id, name := user.name, email := user.email,
        password := user.password, avatar := user.avatar, isAdmin := user.isAdmin,
        coins := user.coins, dailyAttempts := user.dailyAttempts,
        lastAttemptDate := user.lastAttemptDate, isBanned := user.isBanned,
        mobile := user.mobile, gender := user.gender, bio := user.bio,
        specializations := storedSpecs user.specializations,
        referralCode := user.referralCode, referredBy := user.referredBy }]) }

/-- `POST /users/\x7buser_id\x7d/coins/increment` (`increment_user_coins`);
`amount = Query(1, ge=1)` is enforced by FastAPI as a 422 before the handler
runs.  Returns the new balance. -/
def increment_user_coins (st : St) (user_id : String) (amount : Int) :
    Except ApiError (St × Int) :=
  if amount < 1 then
    .error (.http 422 "validation error")
  else
    match st.users.find? (fun u => u.id == user_id) with
    | none => .error (.http 404 "User not found")
    | some u =>
      .ok ({ st with users := (updateFirst (fun x => x.id == user_id)
               (fun x => { x with coins := x.coins + amount }) st.users) },
           u.coins + amount)

/-- `POST /users/\x7buser_id\x7d/coins/decrement` (`decrement_user_coins`); rejects
a debit that would overdraw. -/
def decrement_user_coins (st : St) (user_id : String) (amount : Int) :
    Except ApiError (St × Int) :=
  if amount < 1 then
    .error (.http 422 "validation error")
  else
    match st.users.find? (fun u => u.id == user_id) with
    | none => .error (.http 404 "User not found")
    | some u =>
      if u.coins < amount then
        .error (.http 400 ("Insufficient coins. Current: " ++ toString u.coins
          ++ ", required: " ++ toString amount))
      else
        .ok ({ st with users := (updateFirst (fun x => x.id == user_id)
                 (fun x => { x with coins := x.coins - amount }) st.users) },
             u.coins - amount)

/-- `PUT /users/\x7buser_id\x7d` (`update_user`): every profile field is overwritten
from the payload except `coins`, which the handler deliberately does not set
("Do NOT set coins from client payload").  UNIQUE email/referralCode conflicts
with another row surface as `IntegrityError`. -/
def update_user (st : St) (user_id : String) (user : User) : Except ApiError St :=
  match st.users.find? (fun u => u.id == user_id) with
  | none => .error (.http 404 "User not found")
  | some _ =>
    if st.users.any (fun u => !(u.id == user_id) && u.email == user.email) then
      .error (.http 500 "IntegrityError")
    else if (match user.referralCode with
             | some c => st.users.any (fun u => !(u.id == user_id) && u.referralCode == some c)
             | none => false) then
      .error (.http 500 "IntegrityError")
    else
      .ok { st with users := (updateFirst (fun u => u.id == user_id) (fun u =>
        { u with name := user.name, email := user.email, password := user.password,
                 avatar := user.avatar, isAdmin := user.isAdmin,
                 dailyAttempts := user.dailyAttempts,
                 lastAttemptDate := user.lastAttemptDate,
                 isBanned := user.isBanned, mobile := user.mobile,
                 gender := user.gender, bio := user.bio,
                 specializations := storedSpecs user.specializations,
                 referralCode := user.referralCode,
                 referredBy := user.referredBy }) st.users) }

/-- `POST /game-results` (`save_game_result`): append the record and, when
`coinsWon > 0`, credit the (possibly missing, then skipped) user. -/
def save_game_result (st : St) (g : GameResult) : Except ApiError St :=
  if st.game_results.any (fun r => r.id == g.id) then
    .error (.http 500 "IntegrityError")
  else
    let st1 := { st with game_results := (st.game_results ++
      [⟨g.id, g.user_id, g.targetTime, g.actualTime, g.accuracy, g.coinsWon, g.playedAt⟩]) }
    if g.coinsWon > 0 then
      .ok { st1 with users := (updateFirst (fun u => u.id == g.user_id)
              (fun u => { u with coins := u.coins + g.coinsWon }) st1.users) }
    else
      .ok st1

/-- `POST /redemption-requests` (`add_redemption_request`): store the payload
verbatim (including its `status`), touching no balance.  The row construction
parses `requestedAt`, and `updatedAt` when truthy, before `db.add`/`commit`:
a malformed date string raises `ParserError` out of the handler as a plain
HTTP 500, and a duplicate primary key raises `IntegrityError` at commit,
also a 500 — in both cases nothing is committed. -/
def add_redemption_request (st : St) (request : RedemptionRequest) : Except ApiError St :=
  match date_parse? request.requestedAt with
  | none => .error (.http 500 "Internal Server Error")
  | some requestedAt =>
    match parsedUpdatedAt? request.updatedAt with
    | none => .error (.http 500 "Internal Server Error")
    | some updatedAt =>
      if st.redemption_requests.any (fun r => r.id == request.id) then
        .error (.http 500 "IntegrityError")
      else
        .ok { st with redemption_requests := (st.redemption_requests ++
          [{ id := request.id, user_id := request.user_id, amount := request.amount,
             paymentDetails := request.paymentDetails, status := request.status,
             requestedAt := requestedAt, updatedAt := updatedAt,
             adminNotes := request.adminNotes }]) }

/-- The unconditional tail of `update_redemption_request_status`: write status,
adminNotes (defaulting to the stored note when the key is absent) and
`updatedAt`. -/
def redemptionFinish (st : St) (request_id new_status : String)
    (dNotes : Option String) (now : String) : St :=
  { st with redemption_requests := (updateFirst (fun r => r.id == request_id)
      (fun r => { r with status := new_status,
                         adminNotes := (match dNotes with
                                        | some s => some s
                                        | none => r.adminNotes),
                         updatedAt := some now }) st.redemption_requests) }

/-- `PUT /redemption-requests/\x7brequest_id\x7d` (`update_redemption_request_status`).
`request_data` is a `Dict[str, str]`; only its `"status"` and `"adminNotes"`
keys are read, modelled as the two `Option String` arguments (`.get` with the
stored value as default).  Crossing into `"processed"` debits after a balance
check; crossing out refunds; otherwise no balance effect.  A raised
`HTTPException` precedes every mutation, so an error leaves the store as it
was. -/
def update_redemption_request_status (st : St) (request_id : String)
    (dStatus dNotes : Option String) (now : String) : Except ApiError St :=
  match st.redemption_requests.find? (fun r => r.id == request_id) with
  | none => .error (.http 404 "Request not found")
  | some req =>
    match st.users.find? (fun u => u.id == req.user_id) with
    | none => .error (.http 404 "User not found for this request")
    | some _ =>
      let new_status := dStatus.getD req.status
      if new_status = "processed" ∧ req.status ≠ "processed" then
        match st.users.find? (fun u => u.id == req.user_id) with
        | none => .error (.http 404 "User account not found")
        | some user_db =>
          if user_db.coins < req.amount then
            .error (.http 400 ("User does not have enough coins. Current balance: "
              ++ toString user_db.coins ++ ", Required: " ++ toString req.amount))
          else
            .ok (redemptionFinish
              { st with users := (updateFirst (fun u => u.id == req.user_id)
                  (fun u => { u with coins := u.coins - req.amount }) st.users) }
              request_id new_status dNotes now)
      else if req.status = "processed" ∧ new_status ≠ "processed" then
        .ok (redemptionFinish
          { st with users := (updateFirst (fun u => u.id == req.user_id)
              (fun u => { u with coins := u.coins + req.amount }) st.users) }
          request_id new_status dNotes now)
      else
        .ok (redemptionFinish st request_id new_status dNotes now)

/-! ## The API operations quantified over by the balance invariant -/

/-- One API call of any of the balance-relevant endpoints. -/
inductive Op where
  | vote (poll_id option_id user_id : String)
  | adsReward (today userId : String) (amount : Int)
  | referralApply (referralCode joinerUserId : String)
  | gameResultSave (g : GameResult)
  | coinsIncrement (user_id : String) (amount : Int)
  | coinsDecrement (user_id : String) (amount : Int)
  | redemptionCreate (r : RedemptionRequest)
  | redemptionStatusUpdate (request_id : String) (dStatus dNotes : Option String) (now : String)
  | signupUser (u : User)
  | profileUpdate (user_id : String) (u : User)
  | referralRewardsSet (referrerCoins refereeCoins : Int)
  | coinValueSet (value : String)

/-- Dispatch an operation, discarding the response component. -/
def step (op : Op) (st : St) : Except ApiError St :=
  match op with
  | .vote pid oid uid => add_vote st pid oid uid
  | .adsReward today uid amount => (post_ads_reward st today uid amount).map (fun r => r.1)
  | .referralApply code joiner => apply_referral st code joiner
  | .gameResultSave g => save_game_result st g
  | .coinsIncrement uid amount => (increment_user_coins st uid amount).map (fun r => r.1)
  | .coinsDecrement uid amount => (decrement_user_coins st uid amount).map (fun r => r.1)
  | .redemptionCreate r => add_redemption_request st r
  | .redemptionStatusUpdate rid ds dn now => update_redemption_request_status st rid ds dn now
  | .signupUser u => signup st u
  | .profileUpdate uid u => update_user st uid u
  | .referralRewardsSet a b => .ok (put_referral_rewards st a b)
  | .coinValueSet v => .ok (put_coin_value st v)

/-! ## Observers -/

/-- The coin balance of user `uid`, when the user exists. -/
def userCoins (st : St) (uid : String) : Option Int :=
  (st.users.find? (fun u => u.id == uid)).map (fun u => u.coins)

/-- The `referredBy` column of user `uid`, when the user exists. -/
def userReferredBy (st : St) (uid : String) : Option (Option String) :=
  (st.users.find? (fun u => u.id == uid)).map (fun u => u.referredBy)

/-- The stored redemption request with id `rid`. -/
def findRequest (st : St) (rid : String) : Option RedemptionRequestDB :=
  st.redemption_requests.find? (fun r => r.id == rid)

/-- The stored option `option_id` of poll `poll_id`. -/
def findOption (st : St) (poll_id option_id : String) : Option PollOptionDB :=
  st.poll_options.find? (fun o => o.id == option_id && o.poll_id == poll_id)

/-- The `ads_stats` row of `(uid, date)`. -/
def findStat (st : St) (uid date : String) : Option AdsStatsDB :=
  st.ads_stats.find? (fun r => r.user_id == uid && r.date == date)

/-- Every stored user has a non-negative coin balance. -/
def balancesNonneg (st : St) : Prop := ∀ u ∈ st.users, 0 ≤ u.coins

/-- Every stored redemption request has a non-negative amount. -/
def amountsNonneg (st : St) : Prop := ∀ r ∈ st.redemption_requests, 0 ≤ r.amount

/-! ## Branch lemmas for `update_redemption_request_status` -/

theorem redemptionFinish_users (st : St) (request_id new_status : String)
    (dNotes : Option String) (now : String) :
    (redemptionFinish st request_id new_status dNotes now).users = st.users := rfl

theorem redemptionFinish_find? (st : St) (request_id new_status : String)
    (dNotes : Option String) (now : String) (req : RedemptionRequestDB)
    (hreq : st.redemption_requests.find? (fun r => r.id == request_id) = some req) :
    (redemptionFinish st request_id new_status dNotes now).redemption_requests.find?
        (fun r => r.id == request_id) =
      some { req with status := new_status,
                      adminNotes := (match dNotes with
                                     | some s => some s
                                     | none => req.adminNotes),
                      updatedAt := some now } := by
  have h := find?_updateFirst (fun r : RedemptionRequestDB => r.id == request_id)
    (fun r => { r with status := new_status,
                       adminNotes := (match dNotes with
                                      | some s => some s
                                      | none => r.adminNotes),
                       updatedAt := some now })
    (fun a => rfl) st.redemption_requests
  simp only [redemptionFinish]
  rw [h, hreq]
  rfl

theorem update_status_debit_ok (st : St) (request_id : String)
    (dNotes : Option String) (now : String) (req : RedemptionRequestDB) (u : UserDB)
    (hreq : st.redemption_requests.find? (fun r => r.id == request_id) = some req)
    (hold : req.status ≠ "processed")
    (hu : st.users.find? (fun x => x.id == req.user_id) = some u)
    (hge : ¬ u.coins < req.amount) :
    update_redemption_request_status st request_id (some "processed") dNotes now =
      .ok (redemptionFinish
        { st with users := (updateFirst (fun x => x.id == req.user_id)
            (fun x => { x with coins := x.coins - req.amount }) st.users) }
        request_id "processed" dNotes now) := by
  simp only [update_redemption_request_status, hreq, hu, Option.getD_some]
  rw [if_pos ⟨trivial, hold⟩, if_neg hge]

theorem update_status_debit_insufficient (st : St) (request_id : String)
    (dNotes : Option String) (now : String) (req : RedemptionRequestDB) (u : UserDB)
    (hreq : st.redemption_requests.find? (fun r => r.id == request_id) = some req)
    (hold : req.status ≠ "processed")
    (hu : st.users.find? (fun x => x.id == req.user_id) = some u)
    (hlt : u.coins < req.amount) :
    update_redemption_request_status st request_id (some "processed") dNotes now =
      .error (.http 400 ("User does not have enough coins. Current balance: "
        ++ toString u.coins ++ ", Required: " ++ toString req.amount)) := by
  simp only [update_redemption_request_status, hreq, hu, Option.getD_some]
  rw [if_pos ⟨trivial, hold⟩, if_pos hlt]

theorem update_status_refund_ok (st : St) (request_id new_status : String)
    (dNotes : Option String) (now : String) (req : RedemptionRequestDB) (u : UserDB)
    (hreq : st.redemption_requests.find? (fun r => r.id == request_id) = some req)
    (holdp : req.status = "processed")
    (hu : st.users.find? (fun x => x.id == req.user_id) = some u)
    (hns : new_status ≠ "processed") :
    update_redemption_request_status st request_id (some new_status) dNotes now =
      .ok (redemptionFinish
        { st with users := (updateFirst (fun x => x.id == req.user_id)
            (fun x => { x with coins := x.coins + req.amount }) st.users) }
        request_id new_status dNotes now) := by
  simp only [update_redemption_request_status, hreq, hu, Option.getD_some]
  rw [if_neg (fun h => hns h.1), if_pos ⟨holdp, hns⟩]

theorem update_status_no_crossing_ok (st : St) (request_id : String)
    (dStatus dNotes : Option String) (now : String) (req : RedemptionRequestDB) (u : UserDB)
    (hreq : st.redemption_requests.find? (fun r => r.id == request_id) = some req)
    (hu : st.users.find? (fun x => x.id == req.user_id) = some u)
    (hold : req.status ≠ "processed")
    (hnew : dStatus.getD req.status ≠ "processed") :
    update_redemption_request_status st request_id dStatus dNotes now =
      .ok (redemptionFinish st request_id (dStatus.getD req.status) dNotes now) := by
  simp only [update_redemption_request_status, hreq, hu]
  rw [if_neg (fun h => hnew h.1), if_neg (fun h => hold h.1)]

theorem users_updateFirst_find? (l : List UserDB) (uid : String) (g : UserDB → UserDB)
    (hid : ∀ x, (g x).id = x.id) (u : UserDB)
    (hu : l.find? (fun x => x.id == uid) = some u) :
    (updateFirst (fun x => x.id == uid) g l).find? (fun x => x.id == uid) = some (g u) := by
  have h := find?_updateFirst (fun x : UserDB => x.id == uid) g
    (fun a => by show ((g a).id == uid) = (a.id == uid); rw [hid a]) l
  rw [h, hu]
  rfl

theorem debit_step (st : St) (request_id : String) (dNotes : Option String) (now : String)
    (req : RedemptionRequestDB) (u : UserDB)
    (hreq : st.redemption_requests.find? (fun r => r.id == request_id) = some req)
    (hold : req.status ≠ "processed")
    (hu : st.users.find? (fun x => x.id == req.user_id) = some u)
    (hge : ¬ u.coins < req.amount) :
    ∃ st', update_redemption_request_status st request_id (some "processed") dNotes now =
        .ok st' ∧
      st'.redemption_requests.find? (fun r => r.id == request_id) =
        some { req with status := "processed",
                        adminNotes := (match dNotes with
                                       | some s => some s
                                       | none => req.adminNotes),
                        updatedAt := some now } ∧
      st'.users.find? (fun x => x.id == req.user_id) =
        some { u with coins := u.coins - req.amount } := by
  refine ⟨_, update_status_debit_ok st request_id dNotes now req u hreq hold hu hge, ?_, ?_⟩
  · exact redemptionFinish_find? _ request_id "processed" dNotes now req hreq
  · show (updateFirst (fun x => x.id == req.user_id)
        (fun x => { x with coins := x.coins - req.amount }) st.users).find?
        (fun x => x.id == req.user_id) = _
    exact users_updateFirst_find? st.users req.user_id
      (fun x => { x with coins := x.coins - req.amount }) (fun x => rfl) u hu

theorem refund_step (st : St) (request_id new_status : String)
    (dNotes : Option String) (now : String)
    (req : RedemptionRequestDB) (u : UserDB)
    (hreq : st.redemption_requests.find? (fun r => r.id == request_id) = some req)
    (holdp : req.status = "processed")
    (hu : st.users.find? (fun x => x.id == req.user_id) = some u)
    (hns : new_status ≠ "processed") :
    ∃ st', update_redemption_request_status st request_id (some new_status) dNotes now =
        .ok st' ∧
      st'.redemption_requests.find? (fun r => r.id == request_id) =
        some { req with status := new_status,
                        adminNotes := (match dNotes with
                                       | some s => some s
                                       | none => req.adminNotes),
                        updatedAt := some now } ∧
      st'.users.find? (fun x => x.id == req.user_id) =
        some { u with coins := u.coins + req.amount } := by
  refine ⟨_,
    update_status_refund_ok st request_id new_status dNotes now req u hreq holdp hu hns,
    ?_, ?_⟩
  · exact redemptionFinish_find? _ request_id new_status dNotes now req hreq
  · show (updateFirst (fun x => x.id == req.user_id)
        (fun x => { x with coins := x.coins + req.amount }) st.users).find?
        (fun x => x.id == req.user_id) = _
    exact users_updateFirst_find? st.users req.user_id
      (fun x => { x with coins := x.coins + req.amount }) (fun x => rfl) u hu

/-! ## Concrete stores used by the witnesses and counterexamples -/

/-- A user row with the given id and balance (other columns arbitrary). -/
def mkUser (id : String) (coins : Int) : UserDB :=
  { id := id, name := "n", email := id ++ "@mail", password := "p", avatar := "a",
    isAdmin := false, coins := coins, dailyAttempts := 3, lastAttemptDate := "d",
    isBanned := false, mobile := none, gender := none, bio := none,
    specializations := none, referralCode := none, referredBy := none }

/-- A redemption-request row with the given id, owner, amount and status. -/
def mkReq (id uid : String) (amount : Int) (status : String) : RedemptionRequestDB :=
  { id := id, user_id := uid, amount := amount, paymentDetails := "upi",
    status := status, requestedAt := "t0", updatedAt := none, adminNotes := none }

/-- The empty store. -/
def emptySt : St :=
  { users := [], polls := [], poll_options := [], redemption_requests := [],
    ads_stats := [], settings := [], game_results := [] }

/-! ## C2 -/

/-- C2: when the request's current status is not `"processed"` and its owning
user exists with `balance < amount`, setting the status to `"processed"` fails
with the insufficient-funds 400.  The exception is raised before any mutation
and without a commit, so the modelled operation returns no new store: balance,
status, adminNotes and updatedAt all stay exactly as they were. -/
theorem redemption_process_insufficient_funds (st : St) (request_id : String)
    (dNotes : Option String) (now : String) (req : RedemptionRequestDB) (u : UserDB)
    (hreq : st.redemption_requests.find? (fun r => r.id == request_id) = some req)
    (hold : req.status ≠ "processed")
    (hu : st.users.find? (fun x => x.id == req.user_id) = some u)
    (hlt : u.coins < req.amount) :
    update_redemption_request_status st request_id (some "processed") dNotes now =
      .error (.http 400 ("User does not have enough coins. Current balance: "
        ++ toString u.coins ++ ", Required: " ++ toString req.amount)) :=
  update_status_debit_insufficient st request_id dNotes now req u hreq hold hu hlt

/-- Store for the C2 witness: balance 3, requested amount 5. -/
def stC2 : St :=
  { emptySt with users := [mkUser "u1" 3],
                 redemption_requests := [mkReq "r1" "u1" 5 "pending"] }

/-- Witness for C2 at `stC2`. -/
theorem redemption_process_insufficient_funds_witness :
    update_redemption_request_status stC2 "r1" (some "processed") none "t1" =
      .error (.http 400
        "User does not have enough coins. Current balance: 3, Required: 5") :=
  redemption_process_insufficient_funds stC2 "r1" none "t1"
    (mkReq "r1" "u1" 5 "pending") (mkUser "u1" 3) rfl (by decide) rfl (by decide)

/-! ## C9 -/

/-- C9: a status update crossing the `"processed"` boundary in neither
direction (old and new status both different from `"processed"`) rewrites only
the request's `status`, `adminNotes` and `updatedAt`; every user row — hence
every balance — and every other table is untouched, and the request keeps its
`amount`, owner, id, payment details and `requestedAt`. -/
theorem redemption_no_crossing_frame (st : St) (request_id : String)
    (dStatus dNotes : Option String) (now : String) (req : RedemptionRequestDB) (u : UserDB)
    (hreq : st.redemption_requests.find? (fun r => r.id == request_id) = some req)
    (hu : st.users.find? (fun x => x.id == req.user_id) = some u)
    (hold : req.status ≠ "processed")
    (hnew : dStatus.getD req.status ≠ "processed") :
    ∃ st', update_redemption_request_status st request_id dStatus dNotes now = .ok st' ∧
      st'.users = st.users ∧
      st'.polls = st.polls ∧ st'.poll_options = st.poll_options ∧
      st'.ads_stats = st.ads_stats ∧ st'.settings = st.settings ∧
      st'.game_results = st.game_results ∧
      st'.redemption_requests.find? (fun r => r.id == request_id) =
        some { req with status := dStatus.getD req.status,
                        adminNotes := (match dNotes with
                                       | some s => some s
                                       | none => req.adminNotes),
                        updatedAt := some now } := by
  refine ⟨redemptionFinish st request_id (dStatus.getD req.status) dNotes now,
    update_status_no_crossing_ok st request_id dStatus dNotes now req u hreq hu hold hnew,
    rfl, rfl, rfl, rfl, rfl, rfl, ?_⟩
  exact redemptionFinish_find? st request_id (dStatus.getD req.status) dNotes now req hreq

/-- Store for the C9 witness. -/
def stC9 : St :=
  { emptySt with users := [mkUser "u1" 7],
                 redemption_requests := [mkReq "r1" "u1" 4 "pending"] }

/-- Witness for C9 at `stC9`: `pending → rejected` with a note. -/
theorem redemption_no_crossing_frame_witness :
    ∃ st', update_redemption_request_status stC9 "r1" (some "rejected") (some "no") "t2" =
        .ok st' ∧
      st'.users = stC9.users ∧
      st'.polls = stC9.polls ∧ st'.poll_options = stC9.poll_options ∧
      st'.ads_stats = stC9.ads_stats ∧ st'.settings = stC9.settings ∧
      st'.game_results = stC9.game_results ∧
      st'.redemption_requests.find? (fun r => r.id == "r1") =
        some { mkReq "r1" "u1" 4 "pending" with
               status := "rejected", adminNotes := some "no", updatedAt := some "t2" } :=
  redemption_no_crossing_frame stC9 "r1" (some "rejected") (some "no") "t2"
    (mkReq "r1" "u1" 4 "pending") (mkUser "u1" 7) rfl rfl (by decide) (by decide)

/-! ## C1 -/

/-- C1: for a request in status `"pending"` whose owner exists with a
sufficient balance at each processing step, the admin sequence
`processed → pending → processed` succeeds at every step and moves the owner's
balance `c ↦ c - amount ↦ c ↦ c - amount`: each crossing into `"processed"`
debits `amount` exactly once, the crossing out of it credits `amount` exactly
once, and the net effect of the whole toggle is a single debit of `amount`. -/
theorem redemption_toggle_net_single_debit (st : St) (request_id : String)
    (dn1 dn2 dn3 : Option String) (n1 n2 n3 : String)
    (req : RedemptionRequestDB) (u : UserDB)
    (hreq : st.redemption_requests.find? (fun r => r.id == request_id) = some req)
    (hpend : req.status = "pending")
    (hu : st.users.find? (fun x => x.id == req.user_id) = some u)
    (hge : ¬ u.coins < req.amount) :
    ∃ st1 st2 st3,
      update_redemption_request_status st request_id (some "processed") dn1 n1 = .ok st1 ∧
      update_redemption_request_status st1 request_id (some "pending") dn2 n2 = .ok st2 ∧
      update_redemption_request_status st2 request_id (some "processed") dn3 n3 = .ok st3 ∧
      userCoins st1 req.user_id = some (u.coins - req.amount) ∧
      userCoins st2 req.user_id = some u.coins ∧
      userCoins st3 req.user_id = some (u.coins - req.amount) := by
  have hold1 : req.status ≠ "processed" := by rw [hpend]; decide
  obtain ⟨st1, e1, hr1, hu1⟩ := debit_step st request_id dn1 n1 req u hreq hold1 hu hge
  obtain ⟨st2, e2, hr2, hu2⟩ :=
    refund_step st1 request_id "pending" dn2 n2 _ _ hr1 rfl hu1 (by decide)
  obtain ⟨st3, e3, hr3, hu3⟩ := debit_step st2 request_id dn3 n3 _ _ hr2
    (by show ("pending" : String) ≠ "processed"; decide) hu2
    (by show ¬ u.coins - req.amount + req.amount < req.amount; omega)
  refine ⟨st1, st2, st3, e1, e2, e3, ?_, ?_, ?_⟩
  · show (st1.users.find? (fun x => x.id == req.user_id)).map (fun x => x.coins) = _
    rw [hu1]
    rfl
  · show (st2.users.find? (fun x => x.id == req.user_id)).map (fun x => x.coins) = _
    rw [hu2]
    show some (u.coins - req.amount + req.amount) = some u.coins
    rw [Int.sub_add_cancel]
  · show (st3.users.find? (fun x => x.id == req.user_id)).map (fun x => x.coins) = _
    rw [hu3]
    show some (u.coins - req.amount + req.amount - req.amount) = some (u.coins - req.amount)
    rw [Int.sub_add_cancel]

/-- Store for the C1 witness: balance 10, amount 6. -/
def stC1 : St :=
  { emptySt with users := [mkUser "u1" 10],
                 redemption_requests := [mkReq "r1" "u1" 6 "pending"] }

/-- Witness for C1 at `stC1`: the balance runs 10 ↦ 4 ↦ 10 ↦ 4. -/
theorem redemption_toggle_net_single_debit_witness :
    ∃ st1 st2 st3,
      update_redemption_request_status stC1 "r1" (some "processed") none "t1" = .ok st1 ∧
      update_redemption_request_status st1 "r1" (some "pending") none "t2" = .ok st2 ∧
      update_redemption_request_status st2 "r1" (some "processed") none "t3" = .ok st3 ∧
      userCoins st1 "u1" = some 4 ∧
      userCoins st2 "u1" = some 10 ∧
      userCoins st3 "u1" = some 4 :=
  redemption_toggle_net_single_debit stC1 "r1" none none none "t1" "t2" "t3"
    (mkReq "r1" "u1" 6 "pending") (mkUser "u1" 10) rfl rfl rfl (by decide)

/-- A poll row with the given id (other columns arbitrary). -/
def mkPoll (id : String) : PollDB :=
  { id := id, title := "t", description := "d", category := "c", thumbnail := "th",
    createdAt := "2025-01-01", disableVoiceComments := false }

/-- A poll-option row with the given id, poll, vote count and voter list. -/
def mkOpt (id poll_id : String) (votes : Int) (votedBy : List String) : PollOptionDB :=
  { id := id, poll_id := poll_id, text := "x", imageUrl := "i",
    votes := votes, votedBy := votedBy }

/-! ## C5 -/

/-- C5 counterexample: `u1` is already in option `o1`'s voter set, and the
repeated vote returns HTTP 200 with the poll and the store completely
unchanged — it does not fail with any error, contradicting the claim that a
duplicate vote surfaces an AlreadyApplied domain error to the caller. -/
theorem duplicate_vote_counterexample :
    add_vote
        { emptySt with users := [mkUser "u1" 2], polls := [mkPoll "p1"],
                       poll_options := [mkOpt "o1" "p1" 1 ["u1"]] }
        "p1" "o1" "u1" =
      .ok { emptySt with users := [mkUser "u1" 2], polls := [mkPoll "p1"],
                         poll_options := [mkOpt "o1" "p1" 1 ["u1"]] } := rfl

/-- C5 (amended): a second vote with the same `(userId, optionId)` grants no
additional reward — the option's votes, its voter set and every balance are
unchanged — but it does not raise an error: the handler silently returns the
poll unchanged (HTTP 200), so no AlreadyApplied error reaches the caller. -/
theorem duplicate_vote_silently_ignored (st : St) (poll_id option_id user_id : String)
    (p : PollDB) (opt : PollOptionDB)
    (hp : st.polls.find? (fun q => q.id == poll_id) = some p)
    (hopt : st.poll_options.find? (fun o => o.id == option_id && o.poll_id == poll_id) = some opt)
    (hmem : user_id ∈ opt.votedBy) :
    add_vote st poll_id option_id user_id = .ok st := by
  simp only [add_vote, hp, hopt, if_pos hmem]

/-- Store for the C5 witness. -/
def stC5w : St :=
  { emptySt with users := [mkUser "u9" 7], polls := [mkPoll "p2"],
                 poll_options := [mkOpt "o2" "p2" 3 ["u8", "u9"]] }

/-- Witness for C5 at `stC5w`. -/
theorem duplicate_vote_silently_ignored_witness :
    add_vote stC5w "p2" "o2" "u9" = .ok stC5w :=
  duplicate_vote_silently_ignored stC5w "p2" "o2" "u9" (mkPoll "p2")
    (mkOpt "o2" "p2" 3 ["u8", "u9"]) rfl rfl (by decide)

/-! ## C10 -/

/-- C10: voting as a `user_id` that belongs to no stored user (on an existing
poll and option, not yet in the voter set) is not a NotFound error: the vote
succeeds, the option gains one vote and the voter id, and the users table —
hence every balance — is completely unchanged (the coin credit is skipped for
a missing user). -/
theorem vote_unknown_user_succeeds (st : St) (poll_id option_id user_id : String)
    (p : PollDB) (opt : PollOptionDB)
    (hp : st.polls.find? (fun q => q.id == poll_id) = some p)
    (hopt : st.poll_options.find? (fun o => o.id == option_id && o.poll_id == poll_id) = some opt)
    (hmem : user_id ∉ opt.votedBy)
    (hnouser : st.users.find? (fun x => x.id == user_id) = none) :
    ∃ st', add_vote st poll_id option_id user_id = .ok st' ∧
      st'.users = st.users ∧
      st'.poll_options.find? (fun o => o.id == option_id && o.poll_id == poll_id) =
        some { opt with votes := opt.votes + 1, votedBy := opt.votedBy ++ [user_id] } ∧
      st'.polls = st.polls ∧ st'.redemption_requests = st.redemption_requests := by
  refine ⟨{ st with
      poll_options := (updateFirst (fun o => o.id == option_id && o.poll_id == poll_id)
        (fun o => { o with votes := o.votes + 1, votedBy := o.votedBy ++ [user_id] })
        st.poll_options),
      users := (updateFirst (fun u => u.id == user_id)
        (fun u => { u with coins := u.coins + 1 }) st.users) }, ?_, ?_, ?_, rfl, rfl⟩
  · simp only [add_vote, hp, hopt, if_neg hmem]
  · exact updateFirst_of_find?_none _ _ st.users hnouser
  · have h := find?_updateFirst (fun o : PollOptionDB => o.id == option_id && o.poll_id == poll_id)
      (fun o => { o with votes := o.votes + 1, votedBy := o.votedBy ++ [user_id] })
      (fun a => rfl) st.poll_options
    exact h.trans (by rw [hopt]; rfl)

/-- Store for the C10 witness: no user `"u7"` exists. -/
def stC10 : St :=
  { emptySt with users := [mkUser "u1" 5], polls := [mkPoll "p3"],
                 poll_options := [mkOpt "o3" "p3" 1 ["u9"]] }

/-- Witness for C10 at `stC10`. -/
theorem vote_unknown_user_succeeds_witness :
    ∃ st', add_vote stC10 "p3" "o3" "u7" = .ok st' ∧
      st'.users = stC10.users ∧
      st'.poll_options.find? (fun o => o.id == "o3" && o.poll_id == "p3") =
        some { mkOpt "o3" "p3" 1 ["u9"] with votes := 2, votedBy := ["u9", "u7"] } ∧
      st'.polls = stC10.polls ∧ st'.redemption_requests = stC10.redemption_requests :=
  vote_unknown_user_succeeds stC10 "p3" "o3" "u7" (mkPoll "p3") (mkOpt "o3" "p3" 1 ["u9"])
    rfl rfl (by decide) rfl

/-! ## C4 -/

/-- C4 counterexample: a create call whose payload carries
`status = "processed"` is stored with status `"processed"` — the handler
copies the payload status verbatim and does not force the initial status to
`"pending"`. -/
theorem redemption_create_status_counterexample :
    (add_redemption_request { emptySt with users := [mkUser "u1" 9] }
        { id := "r1", user_id := "u1", amount := 5, paymentDetails := "upi",
          status := "processed", requestedAt := "t0", updatedAt := none,
          adminNotes := none }).map
        (fun s => (findRequest s "r1").map (fun r => r.status)) =
      .ok (some "processed") ∧ ("processed" : String) ≠ "pending" :=
  ⟨rfl, by decide⟩

/-- C4 (amended): `POST /redemption-requests` stores the payload verbatim —
its status is whatever the client sent, `"pending"` only when the payload says
so — performs no balance check and no balance adjustment (the users table is
untouched), and never fails with InsufficientFunds: every failure of create
(a malformed date string rejected by the parser, or a duplicate id) is an
internal HTTP 500 raised before commit, never the insufficient-funds 400, and
an error leaves every table as it was. -/
theorem redemption_create_stores_payload (st : St) (request : RedemptionRequest) :
    (∀ ra ua, date_parse? request.requestedAt = some ra →
      parsedUpdatedAt? request.updatedAt = some ua →
      st.redemption_requests.any (fun x => x.id == request.id) = false →
      add_redemption_request st request =
        .ok { st with redemption_requests := (st.redemption_requests ++
          [{ id := request.id, user_id := request.user_id, amount := request.amount,
             paymentDetails := request.paymentDetails, status := request.status,
             requestedAt := ra, updatedAt := ua,
             adminNotes := request.adminNotes }]) }) ∧
    (∀ e, add_redemption_request st request = .error e → ∃ d, e = .http 500 d) := by
  constructor
  · intro ra ua h1 h2 h3
    simp only [add_redemption_request, h1, h2]
    rw [if_neg (fun hc => Bool.false_ne_true (h3 ▸ hc))]
  · intro e he
    unfold add_redemption_request at he
    split at he
    · exact ⟨"Internal Server Error", (Except.error.inj he).symm⟩
    · split at he
      · exact ⟨"Internal Server Error", (Except.error.inj he).symm⟩
      · split at he
        · exact ⟨"IntegrityError", (Except.error.inj he).symm⟩
        · simp at he

/-- Store for the C4 witness. -/
def stC4w : St := { emptySt with users := [mkUser "u2" 1] }

/-- Witness for C4 at `stC4w`: a fresh-id create succeeds, stores the payload
status `"pending"` verbatim, and leaves the users table unchanged. -/
theorem redemption_create_stores_payload_witness :
    add_redemption_request stC4w
        { id := "r9", user_id := "u2", amount := 3, paymentDetails := "bank",
          status := "pending", requestedAt := "t5", updatedAt := none,
          adminNotes := none } =
      .ok { stC4w with redemption_requests :=
        [{ id := "r9", user_id := "u2", amount := 3, paymentDetails := "bank",
           status := "pending", requestedAt := "t5", updatedAt := none,
           adminNotes := none }] } :=
  (redemption_create_stores_payload stC4w
    { id := "r9", user_id := "u2", amount := 3, paymentDetails := "bank",
      status := "pending", requestedAt := "t5", updatedAt := none,
      adminNotes := none }).1 "t5" none rfl rfl rfl

/-! ## C7 -/

/-- C7: a successful `PUT /users/{user_id}` never changes any coin balance —
the handler copies every profile field from the client payload except `coins`
(deliberately skipped in the source), so whatever `coins` value the payload
carries, every stored user's balance reads the same afterwards. -/
theorem profile_update_preserves_balances (st : St) (user_id : String) (user : User)
    (st' : St) (h : update_user st user_id user = .ok st') :
    ∀ uid, userCoins st' uid = userCoins st uid := by
  cases hfind : st.users.find? (fun u => u.id == user_id) with
  | none =>
    unfold update_user at h
    rw [hfind] at h
    simp at h
  | some u0 =>
    unfold update_user at h
    rw [hfind] at h
    by_cases hdup : st.users.any (fun u => !(u.id == user_id) && u.email == user.email) = true
    · rw [if_pos hdup] at h
      simp at h
    · rw [if_neg hdup] at h
      by_cases hdup2 : (match user.referralCode with
          | some c => st.users.any (fun u => !(u.id == user_id) && u.referralCode == some c)
          | none => false) = true
      · rw [if_pos hdup2] at h
        simp at h
      · rw [if_neg hdup2] at h
        simp only [Except.ok.injEq] at h
        subst h
        intro uid
        unfold userCoins
        exact find?_updateFirst_comm (fun u => u.id == user_id) (fun x => x.id == uid)
          (fun u => { u with name := user.name, email := user.email,
                             password := user.password, avatar := user.avatar,
                             isAdmin := user.isAdmin,
                             dailyAttempts := user.dailyAttempts,
                             lastAttemptDate := user.lastAttemptDate,
                             isBanned := user.isBanned, mobile := user.mobile,
                             gender := user.gender, bio := user.bio,
                             specializations := storedSpecs user.specializations,
                             referralCode := user.referralCode,
                             referredBy := user.referredBy })
          (fun x => x.coins) (fun a => rfl) (fun a => rfl) st.users

/-- Store for the C7 witness: one user with balance 5. -/
def stC7 : St := { emptySt with users := [mkUser "u1" 5] }

/-- Update payload for the C7 witness: it carries `coins := 99`. -/
def payloadC7 : User :=
  { id := "u1", name := "N2", email := "new@mail", password := "p2", avatar := "a2",
    isAdmin := false, coins := 99, dailyAttempts := 1, lastAttemptDate := "d2",
    isBanned := false, mobile := none, gender := none, bio := none,
    specializations := none, referralCode := none, referredBy := some "u2" }

/-- The store resulting from the C7 witness update: the profile fields change,
`coins` stays 5 even though the payload said 99. -/
def stC7out : St :=
  { emptySt with users := [{
      id := "u1", name := "N2", email := "new@mail", password := "p2", avatar := "a2",
      isAdmin := false, coins := 5, dailyAttempts := 1, lastAttemptDate := "d2",
      isBanned := false, mobile := none, gender := none, bio := none,
      specializations := none, referralCode := none, referredBy := some "u2" }] }

/-- Witness for C7 at `stC7`. -/
theorem profile_update_preserves_balances_witness :
    userCoins stC7out "u1" = userCoins stC7 "u1" :=
  profile_update_preserves_balances stC7 "u1" payloadC7 stC7out rfl "u1"

/-! ## C6 -/

/-- A user whose `referredBy` is already set (to `"r9"`). -/
def uC6 : UserDB := { mkUser "u1" 5 with referredBy := some "r9" }

/-- Update payload for the C6 counterexample: it carries `referredBy = "u3"`. -/
def payloadC6 : User :=
  { id := "u1", name := "n", email := "c6@mail", password := "p", avatar := "a",
    isAdmin := false, coins := 5, dailyAttempts := 3, lastAttemptDate := "d",
    isBanned := false, mobile := none, gender := none, bio := none,
    specializations := none, referralCode := none, referredBy := some "u3" }

/-- C6 counterexample: user `u1` has `referredBy = some "r9"` (non-null), yet a
client profile update carrying `referredBy = "u3"` succeeds and overwrites it
with the different value `"u3"` — `PUT /users/{user_id}` copies `referredBy`
verbatim from the payload, so `referredBy` is not write-once. -/
theorem referredBy_overwritten_counterexample :
    userReferredBy { emptySt with users := [uC6, mkUser "u3" 0] } "u1" =
        some (some "r9") ∧
      (update_user { emptySt with users := [uC6, mkUser "u3" 0] } "u1" payloadC6).map
        (fun s => userReferredBy s "u1") = .ok (some (some "u3")) ∧
      ("u3" : String) ≠ "r9" :=
  ⟨rfl, rfl, by decide⟩

/-- C6 (amended): the referral endpoint itself is one-shot — `apply_referral`
for a joiner whose `referredBy` is a non-empty string fails with 400 "Referral
already applied for this user" and changes nothing — but client profile
updates (`PUT /users/{user_id}`) overwrite `referredBy` with the payload value
and can change it to a different value. -/
theorem referral_apply_one_shot (st : St) (referralCode joinerUserId : String) (j : UserDB)
    (hj : st.users.find? (fun u => u.id == joinerUserId) = some j)
    (htruthy : strTruthy j.referredBy = true) :
    apply_referral st referralCode joinerUserId =
      .error (.http 400 "Referral already applied for this user") := by
  simp only [apply_referral, hj, if_pos htruthy]

/-- Store for the C6 witness. -/
def stC6w : St := { emptySt with users := [{ mkUser "u5" 2 with referredBy := some "rX" }] }

/-- Witness for C6 at `stC6w`. -/
theorem referral_apply_one_shot_witness :
    apply_referral stC6w "anycode" "u5" =
      .error (.http 400 "Referral already applied for this user") :=
  referral_apply_one_shot stC6w "anycode" "u5"
    { mkUser "u5" 2 with referredBy := some "rX" } rfl (by decide)

/-! ## C8 -/

theorem post_ads_reward_insert (st : St) (today userId : String) (amount : Int) (u : UserDB)
    (hu : st.users.find? (fun x => x.id == userId) = some u)
    (hstat : st.ads_stats.find? (fun r => r.user_id == userId && r.date == today) = none) :
    post_ads_reward st today userId amount =
      .ok ({ st with
               users := (updateFirst (fun x => x.id == userId)
                 (fun x => { x with coins := x.coins + max 0 amount }) st.users),
               ads_stats := (st.ads_stats ++
                 [⟨userId, today, if max 0 amount > 0 then 1 else 0, max 0 amount⟩]) },
           u.coins + max 0 amount,
           ⟨userId, today, if max 0 amount > 0 then 1 else 0, max 0 amount⟩) := by
  simp only [post_ads_reward, hu]
  rw [hstat]
  rw [find?_append_of_none _ _ hstat]
  simp

theorem post_ads_reward_update (st : St) (today userId : String) (amount : Int)
    (u : UserDB) (row : AdsStatsDB)
    (hu : st.users.find? (fun x => x.id == userId) = some u)
    (hstat : st.ads_stats.find? (fun r => r.user_id == userId && r.date == today) = some row) :
    post_ads_reward st today userId amount =
      .ok ({ st with
               users := (updateFirst (fun x => x.id == userId)
                 (fun x => { x with coins := x.coins + max 0 amount }) st.users),
               ads_stats := (updateFirst (fun r => r.user_id == userId && r.date == today)
                 (fun r => { r with watched := r.watched + (if max 0 amount > 0 then 1 else 0),
                                    coins := r.coins + max 0 amount }) st.ads_stats) },
           u.coins + max 0 amount,
           { row with watched := row.watched + (if max 0 amount > 0 then 1 else 0),
                      coins := row.coins + max 0 amount }) := by
  simp only [post_ads_reward, hu]
  rw [hstat]
  have h := find?_updateFirst (fun r : AdsStatsDB => r.user_id == userId && r.date == today)
    (fun r => { r with watched := r.watched + (if max 0 amount > 0 then 1 else 0),
                       coins := r.coins + max 0 amount })
    (fun a => rfl) st.ads_stats
  rw [h, hstat]
  rfl

/-- Store for the C8 counterexample: an existing row `(watched 2, coins 7)`. -/
def stC8c : St :=
  { emptySt with users := [mkUser "u8" 10], ads_stats := [⟨"u8", "d1", 2, 7⟩] }

/-- C8 counterexample: user `u8` exists and today's row is `(watched 2,
coins 7)`; an ad-reward call with `amount = 0` returns the row unchanged —
`watched` stays 2 instead of being incremented to 3, because the handler only
increments `watched` when the clamped grant is positive.  (The balance part is
honoured: the credit is `max 0 0 = 0`.) -/
theorem ads_reward_watched_counterexample :
    (post_ads_reward stC8c "d1" "u8" 0).map
      (fun r => (r.2.2.watched, r.2.2.coins)) = .ok (2, 7) ∧ (2 : Int) ≠ 2 + 1 :=
  ⟨rfl, by decide⟩

/-- C8 (amended): for an existing user the ad-reward operation credits exactly
`max 0 amount` and upserts the per-(user, day) row in the same transaction:
the row is created if absent; otherwise its `coins` counter grows by the
granted amount while `watched` grows by 1 only when the granted amount is
positive (an `amount ≤ 0` call leaves `watched` unchanged).  The response
carries the updated balance and the upserted row. -/
theorem ads_reward_spec (st : St) (today userId : String) (amount : Int) (u : UserDB)
    (hu : st.users.find? (fun x => x.id == userId) = some u) :
    ∃ st' row,
      post_ads_reward st today userId amount = .ok (st', u.coins + max 0 amount, row) ∧
      userCoins st' userId = some (u.coins + max 0 amount) ∧
      findStat st' userId today = some row ∧
      row = (match findStat st userId today with
             | none => ⟨userId, today, if max 0 amount > 0 then 1 else 0, max 0 amount⟩
             | some r => { r with watched := r.watched + (if max 0 amount > 0 then 1 else 0),
                                  coins := r.coins + max 0 amount }) := by
  have hcoins : (updateFirst (fun x => x.id == userId)
      (fun x => { x with coins := x.coins + max 0 amount }) st.users).find?
        (fun x => x.id == userId) = some { u with coins := u.coins + max 0 amount } :=
    users_updateFirst_find? st.users userId
      (fun x => { x with coins := x.coins + max 0 amount }) (fun x => rfl) u hu
  cases hstat : st.ads_stats.find? (fun r => r.user_id == userId && r.date == today) with
  | none =>
    refine ⟨_, _, post_ads_reward_insert st today userId amount u hu hstat, ?_, ?_, ?_⟩
    · show ((updateFirst (fun x => x.id == userId)
          (fun x => { x with coins := x.coins + max 0 amount }) st.users).find?
          (fun x => x.id == userId)).map (fun x => x.coins) = _
      rw [hcoins]
      rfl
    · show (st.ads_stats ++
          [(⟨userId, today, if max 0 amount > 0 then 1 else 0,
              max 0 amount⟩ : AdsStatsDB)]).find?
          (fun r => r.user_id == userId && r.date == today) = _
      rw [find?_append_of_none _ _ hstat]
      simp
    · unfold findStat
      rw [hstat]
  | some row =>
    refine ⟨_, _, post_ads_reward_update st today userId amount u row hu hstat, ?_, ?_, ?_⟩
    · show ((updateFirst (fun x => x.id == userId)
          (fun x => { x with coins := x.coins + max 0 amount }) st.users).find?
          (fun x => x.id == userId)).map (fun x => x.coins) = _
      rw [hcoins]
      rfl
    · show (updateFirst (fun r => r.user_id == userId && r.date == today)
          (fun r => { r with watched := r.watched + (if max 0 amount > 0 then 1 else 0),
                             coins := r.coins + max 0 amount }) st.ads_stats).find?
          (fun r => r.user_id == userId && r.date == today) = _
      have h := find?_updateFirst (fun r : AdsStatsDB => r.user_id == userId && r.date == today)
        (fun r => { r with watched := r.watched + (if max 0 amount > 0 then 1 else 0),
                           coins := r.coins + max 0 amount })
        (fun a => rfl) st.ads_stats
      rw [h, hstat]
      rfl
    · unfold findStat
      rw [hstat]

/-- Store for the C8 witness. -/
def stC8w : St :=
  { emptySt with users := [mkUser "u8" 10], ads_stats := [⟨"u8", "d2", 2, 7⟩] }

/-- Witness for C8 at `stC8w`: granting 5 moves the balance to 15 and the row
to `(watched 3, coins 12)`. -/
theorem ads_reward_spec_witness :
    ∃ st' row,
      post_ads_reward stC8w "d2" "u8" 5 = .ok (st', 15, row) ∧
      userCoins st' "u8" = some 15 ∧
      findStat st' "u8" "d2" = some row ∧
      row = (⟨"u8", "d2", 3, 12⟩ : AdsStatsDB) :=
  ads_reward_spec stC8w "d2" "u8" 5 (mkUser "u8" 10) rfl

/-! ## C3 -/

theorem set_setting_users (st : St) (k v : String) :
    (set_setting st k v).users = st.users := by
  unfold set_setting
  cases st.settings.find? (fun s => s.key == k) <;> rfl

theorem update_status_req_not_found (st : St) (rid : String) (ds dn : Option String)
    (now : String)
    (hreq : st.redemption_requests.find? (fun r => r.id == rid) = none) :
    update_redemption_request_status st rid ds dn now =
      .error (.http 404 "Request not found") := by
  simp only [update_redemption_request_status, hreq]

theorem update_status_user_not_found (st : St) (rid : String) (ds dn : Option String)
    (now : String) (req : RedemptionRequestDB)
    (hreq : st.redemption_requests.find? (fun r => r.id == rid) = some req)
    (hu : st.users.find? (fun u => u.id == req.user_id) = none) :
    update_redemption_request_status st rid ds dn now =
      .error (.http 404 "User not found for this request") := by
  simp only [update_redemption_request_status, hreq, hu]

theorem update_status_else_ok (st : St) (rid : String) (ds dn : Option String)
    (now : String) (req : RedemptionRequestDB) (u : UserDB)
    (hreq : st.redemption_requests.find? (fun r => r.id == rid) = some req)
    (hu : st.users.find? (fun x => x.id == req.user_id) = some u)
    (hn1 : ¬(ds.getD req.status = "processed" ∧ req.status ≠ "processed"))
    (hn2 : ¬(req.status = "processed" ∧ ds.getD req.status ≠ "processed")) :
    update_redemption_request_status st rid ds dn now =
      .ok (redemptionFinish st rid (ds.getD req.status) dn now) := by
  simp only [update_redemption_request_status, hreq, hu]
  rw [if_neg hn1, if_neg hn2]

/-- Extra obligation the amended C3 places on the operation payload: a signup
stores the client-supplied `coins` verbatim, so it must be non-negative. -/
def opPayloadOk : Op → Prop
  | .signupUser u => 0 ≤ u.coins
  | _ => True

/-- Signup payload carrying a negative balance. -/
def negUserC3 : User :=
  { id := "u1", name := "n", email := "neg@mail", password := "p", avatar := "a",
    isAdmin := false, coins := -1, dailyAttempts := 3, lastAttemptDate := "d",
    isBanned := false, mobile := none, gender := none, bio := none,
    specializations := none, referralCode := none, referredBy := none }

/-- The store produced by signing `negUserC3` up on the empty store. -/
def stC3neg : St :=
  { emptySt with users := [{
      id := "u1", name := "n", email := "neg@mail", password := "p", avatar := "a",
      isAdmin := false, coins := -1, dailyAttempts := 3, lastAttemptDate := "d",
      isBanned := false, mobile := none, gender := none, bio := none,
      specializations := none, referralCode := none, referredBy := none }] }

/-- C3 counterexample: on the empty store — where every balance is trivially
non-negative — the listed API operation `signup` with a payload carrying
`coins = -1` succeeds and creates a user with a negative balance, because the
handler stores the client-supplied `coins` verbatim.  So non-negativity is
not preserved by every listed operation as claimed. -/
theorem balances_nonneg_counterexample :
    balancesNonneg emptySt ∧
    step (Op.signupUser negUserC3) emptySt = .ok stC3neg ∧
    ¬ balancesNonneg stC3neg :=
  ⟨by unfold balancesNonneg; decide, rfl, by unfold balancesNonneg; decide⟩

/-- C3 (amended): every listed API operation (vote, ad reward, referral apply,
game result save, coin increment/decrement, redemption create or status
update, signup, profile update, settings update) preserves non-negativity of
all balances, provided the client-controlled inputs are themselves
non-negative: the signup payload's `coins`, every stored redemption `amount`
(a refund adds the stored amount unconditionally) and the two configured
referral rewards (they are added verbatim).  Without those provisos the claim
fails — see the counterexample, where a signup with `coins = -1` creates a
negative balance. -/
theorem step_preserves_balances_nonneg (op : Op) (st st' : St)
    (hbal : balancesNonneg st)
    (hamt : amountsNonneg st)
    (hrew1 : 0 ≤ (get_referral_rewards st).1)
    (hrew2 : 0 ≤ (get_referral_rewards st).2)
    (hop : opPayloadOk op)
    (h : step op st = .ok st') :
    balancesNonneg st' := by
  cases op with
  | vote pid oid uid =>
    simp only [step] at h
    unfold add_vote at h
    split at h
    · simp at h
    · split at h
      · simp at h
      · split at h
        · simp only [Except.ok.injEq] at h
          subst h
          exact hbal
        · simp only [Except.ok.injEq] at h
          subst h
          intro x hx
          exact forall_mem_updateFirst_of_inv _ _ hbal
            (fun a ha => by show (0 : Int) ≤ a.coins + 1; omega) x hx
  | adsReward today uid amount =>
    simp only [step] at h
    cases hu : st.users.find? (fun x => x.id == uid) with
    | none =>
      unfold post_ads_reward at h
      rw [hu] at h
      simp [Except.map] at h
    | some u =>
      have hg : (0 : Int) ≤ max 0 amount := le_max_left 0 amount
      cases hstat : st.ads_stats.find? (fun r => r.user_id == uid && r.date == today) with
      | none =>
        rw [post_ads_reward_insert st today uid amount u hu hstat] at h
        simp only [Except.map, Except.ok.injEq] at h
        subst h
        intro x hx
        exact forall_mem_updateFirst_of_inv _ _ hbal
          (fun a ha => by show (0 : Int) ≤ a.coins + max 0 amount; omega) x hx
      | some row =>
        rw [post_ads_reward_update st today uid amount u row hu hstat] at h
        simp only [Except.map, Except.ok.injEq] at h
        subst h
        intro x hx
        exact forall_mem_updateFirst_of_inv _ _ hbal
          (fun a ha => by show (0 : Int) ≤ a.coins + max 0 amount; omega) x hx
  | referralApply code joiner =>
    simp only [step] at h
    unfold apply_referral at h
    split at h
    · simp at h
    next j hj =>
      split at h
      · simp at h
      · split at h
        · simp at h
        next referrer href =>
          split at h
          · simp at h
          next hself =>
            simp only [Except.ok.injEq] at h
            subst h
            intro x hx
            have hall1 : ∀ b ∈ updateFirst (fun u => u.id == joiner)
                (fun u => { u with coins := u.coins + (get_referral_rewards st).2,
                                   referredBy := some referrer.id }) st.users,
                (0 : Int) ≤ b.coins :=
              forall_mem_updateFirst_of_inv _ _ hbal
                (fun a ha => by
                  show (0 : Int) ≤ a.coins + (get_referral_rewards st).2; omega)
            exact forall_mem_updateFirst_of_inv _ _ hall1
              (fun a ha => by
                show (0 : Int) ≤ a.coins + (get_referral_rewards st).1; omega) x hx
  | gameResultSave g =>
    simp only [step] at h
    unfold save_game_result at h
    split at h
    · simp at h
    · split at h
      next hwin =>
        simp only [Except.ok.injEq] at h
        subst h
        intro x hx
        exact forall_mem_updateFirst_of_inv _ _ hbal
          (fun a ha => by show (0 : Int) ≤ a.coins + g.coinsWon; omega) x hx
      next hwin =>
        simp only [Except.ok.injEq] at h
        subst h
        exact hbal
  | coinsIncrement uid amount =>
    simp only [step] at h
    unfold increment_user_coins at h
    split at h
    · simp [Except.map] at h
    next hlt =>
      split at h
      · simp [Except.map] at h
      · simp only [Except.map, Except.ok.injEq] at h
        subst h
        intro x hx
        exact forall_mem_updateFirst_of_inv _ _ hbal
          (fun a ha => by show (0 : Int) ≤ a.coins + amount; omega) x hx
  | coinsDecrement uid amount =>
    simp only [step] at h
    unfold decrement_user_coins at h
    split at h
    · simp [Except.map] at h
    · split at h
      · simp [Except.map] at h
      next u hu =>
        split at h
        · simp [Except.map] at h
        next hin =>
          simp only [Except.map, Except.ok.injEq] at h
          subst h
          intro x hx
          have hu0 := hbal u (List.mem_of_find?_eq_some hu)
          exact forall_mem_updateFirst _ _ hu hbal
            (by show (0 : Int) ≤ u.coins - amount; omega) x hx
  | redemptionCreate r =>
    simp only [step] at h
    unfold add_redemption_request at h
    split at h
    · simp at h
    · split at h
      · simp at h
      · split at h
        · simp at h
        · simp only [Except.ok.injEq] at h
          subst h
          exact hbal
  | redemptionStatusUpdate rid ds dn now =>
    simp only [step] at h
    cases hreq : st.redemption_requests.find? (fun r => r.id == rid) with
    | none =>
      rw [update_status_req_not_found st rid ds dn now hreq] at h
      simp at h
    | some req =>
      cases huser : st.users.find? (fun u => u.id == req.user_id) with
      | none =>
        rw [update_status_user_not_found st rid ds dn now req hreq huser] at h
        simp at h
      | some usr =>
        by_cases hc1 : ds.getD req.status = "processed" ∧ req.status ≠ "processed"
        · cases ds with
          | none => exact absurd hc1.1 hc1.2
          | some sVal =>
            have hs : sVal = "processed" := hc1.1
            subst hs
            by_cases hins : usr.coins < req.amount
            · rw [update_status_debit_insufficient st rid dn now req usr
                hreq hc1.2 huser hins] at h
              simp at h
            · rw [update_status_debit_ok st rid dn now req usr hreq hc1.2 huser hins] at h
              simp only [Except.ok.injEq] at h
              subst h
              intro x hx
              have hu0 := hbal usr (List.mem_of_find?_eq_some huser)
              exact forall_mem_updateFirst _ _ huser hbal
                (by show (0 : Int) ≤ usr.coins - req.amount; omega) x hx
        · by_cases hc2 : req.status = "processed" ∧ ds.getD req.status ≠ "processed"
          · cases ds with
            | none => exact absurd hc2.1 hc2.2
            | some sVal =>
              rw [update_status_refund_ok st rid sVal dn now req usr
                hreq hc2.1 huser hc2.2] at h
              simp only [Except.ok.injEq] at h
              subst h
              intro x hx
              have hamt0 := hamt req (List.mem_of_find?_eq_some hreq)
              exact forall_mem_updateFirst_of_inv _ _ hbal
                (fun a ha => by show (0 : Int) ≤ a.coins + req.amount; omega) x hx
          · rw [update_status_else_ok st rid ds dn now req usr hreq huser hc1 hc2] at h
            simp only [Except.ok.injEq] at h
            subst h
            exact hbal
  | signupUser u =>
    simp only [step] at h
    unfold signup at h
    split at h
    · simp at h
    · split at h
      · simp at h
      · split at h
        · simp at h
        · simp only [Except.ok.injEq] at h
          subst h
          intro x hx
          rcases List.mem_append.mp hx with hx' | hx'
          · exact hbal x hx'
          · rw [List.mem_singleton.mp hx']
            exact hop
  | profileUpdate uid u =>
    simp only [step] at h
    unfold update_user at h
    split at h
    · simp at h
    · split at h
      · simp at h
      · split at h
        · simp at h
        · simp only [Except.ok.injEq] at h
          subst h
          intro x hx
          exact forall_mem_updateFirst_of_inv _ _ hbal (fun a ha => by exact ha) x hx
  | referralRewardsSet a b =>
    simp only [step, Except.ok.injEq] at h
    subst h
    have husers : (put_referral_rewards st a b).users = st.users := by
      unfold put_referral_rewards
      rw [set_setting_users, set_setting_users]
    intro x hx
    rw [husers] at hx
    exact hbal x hx
  | coinValueSet v =>
    simp only [step, Except.ok.injEq] at h
    subst h
    intro x hx
    rw [show (put_coin_value st v).users = st.users
      from set_setting_users st "coinValueINR" v] at hx
    exact hbal x hx

/-- Store for the C3 witness. -/
def stC3w : St := { emptySt with users := [mkUser "u1" 5] }

/-- Store after the C3 witness operation (a decrement of 1 coin). -/
def stC3wOut : St := { emptySt with users := [{ mkUser "u1" 5 with coins := 4 }] }

/-- Witness for C3 at `stC3w`: a decrement of 1 keeps the balance at 4 ≥ 0. -/
theorem step_preserves_balances_nonneg_witness : balancesNonneg stC3wOut :=
  step_preserves_balances_nonneg (Op.coinsDecrement "u1" 1) stC3w stC3wOut
    (by unfold balancesNonneg; decide) (by unfold amountsNonneg; decide)
    (by decide) (by decide) trivial rfl

end PollPlay
